import Mathlib

/-!
# PIBlockingDequeue: a bounded blocking queue

A shallow embedding of `include/piblockingdequeue.h`.  A queue is described by
the contents of `data_queue` and by `max_size`; every member function is a
function of the queue as it is when the caller holds `mutex` (for the waiting
members: when the wait has handed the mutex back).  Each function also reports
the condition-variable notifications it issues.
-/

namespace PIP

/-! ## Machine integers -/

/-- Largest value of `size_t` (a 64-bit unsigned integer). -/
def SIZE_MAX : Nat := 2 ^ 64 - 1

/-- Subtraction of two `size_t` values: unsigned, wrapping modulo `SIZE_MAX + 1`. -/
def size_t_sub (a b : Nat) : Nat :=
  (a % (SIZE_MAX + 1) + (SIZE_MAX + 1) - b % (SIZE_MAX + 1)) % (SIZE_MAX + 1)

/-! ## Outcomes that are not a normal return -/

/-- Ways in which a call does not return normally. -/
inductive Stuck where
  /-- The caller stays blocked inside `wait`: its predicate does not hold. -/
  | blocked
  /-- Undefined behaviour: `front()` or `pop_front()` of an empty `std::deque`. -/
  | undefined
  deriving DecidableEq, Repr

/-- Notifications issued on the two condition variables of a queue. -/
inductive Signal where
  /-- The call `cond_var_add->notify_one()`: an element was added. -/
  | cond_var_add_notify_one
  /-- The call `cond_var_rem->notify_one()`: an element was removed. -/
  | cond_var_rem_notify_one
  /-- The call `cond_var_rem->notifyOne()` made by the instant `poll`. -/
  | cond_var_rem_notifyOne
  deriving DecidableEq, Repr

/-! ## The underlying container (`std::deque`) -/

/-- Member `front()` of the container: the first element; undefined when empty. -/
def front {T : Type} : List T → Except Stuck T
  | [] => Except.error Stuck.undefined
  | t :: _ => Except.ok t

/-- Member `pop_front()` of the container: drops the first element; undefined when empty. -/
def pop_front {T : Type} : List T → Except Stuck (List T)
  | [] => Except.error Stuck.undefined
  | _ :: rest => Except.ok rest

/-- Member `push_back(v)` of the container: appends at the end. -/
def push_back {T : Type} (l : List T) (v : T) : List T := l ++ [v]

/-! ## The condition variable -/

/-- Call `wait(mutex, pred)`: returns only once `pred()` holds.  `pred` is the
value of the predicate on the queue the caller sees under the mutex; while it is
false the caller stays blocked. -/
def wait (pred : Bool) : Except Stuck Unit :=
  if pred then Except.ok () else Except.error Stuck.blocked

/-- Call `wait_for(mutex, timeoutMs, pred)`: returns the value `pred()` has when
the wait ends, `true` when the predicate came to hold and `false` when the
timeout elapsed first. -/
def wait_for (_timeoutMs : Int) (pred : Bool) : Bool := pred

/-! ## The queue -/

/-- State of a `PIBlockingDequeue<T>`: the fields `data_queue` and `max_size`. -/
structure PIBlockingDequeue (T : Type) where
  /-- Elements, head first. -/
  data_queue : List T
  /-- Capacity given to the constructor. -/
  max_size : Nat
  deriving DecidableEq, Repr

/-- Result of a member function: the returned value, the queue afterwards and
the notifications issued, in order. -/
structure Step (R T : Type) where
  /-- Returned value. -/
  ret : R
  /-- Queue after the call. -/
  queue : PIBlockingDequeue T
  /-- Notifications issued by the call. -/
  notified : List Signal
  deriving DecidableEq, Repr

namespace PIBlockingDequeue

variable {T : Type}

/-- Constructor `PIBlockingDequeue(size_t capacity)`: an empty queue. -/
def create (capacity : Nat) : PIBlockingDequeue T :=
  { data_queue := [], max_size := capacity }

/-- Member `size()`. -/
def size (q : PIBlockingDequeue T) : Nat := q.data_queue.length

/-- Member `capacity()`. -/
def capacity (q : PIBlockingDequeue T) : Nat := q.max_size

/-- Member `remainingCapacity()`: `max_size - data_queue.size()` in `size_t`. -/
def remainingCapacity (q : PIBlockingDequeue T) : Nat :=
  size_t_sub q.max_size q.data_queue.length

/-- Predicate `data_queue.size() < max_size` on which `put` and the timed `offer` wait. -/
def notFull (q : PIBlockingDequeue T) : Bool := decide (q.data_queue.length < q.max_size)

/-- Predicate `data_queue.size() != 0` on which `take` and the timed `poll` wait. -/
def notEmpty (q : PIBlockingDequeue T) : Bool := q.data_queue.length != 0

/-- Member `put(v)`. -/
def put (q : PIBlockingDequeue T) (v : T) : Except Stuck (Step Unit T) := do
  wait q.notFull
  let data := push_back q.data_queue v
  return { ret := (), queue := { q with data_queue := data },
           notified := [Signal.cond_var_add_notify_one] }

/-- Member `offer(v)`, the overload that does not wait. -/
def offer (q : PIBlockingDequeue T) (v : T) : Step Bool T :=
  if q.data_queue.length ≥ q.max_size then
    { ret := false, queue := q, notified := [] }
  else
    { ret := true, queue := { q with data_queue := push_back q.data_queue v },
      notified := [Signal.cond_var_add_notify_one] }

/-- Member `offer(v, timeoutMs)`. -/
def offerTimed (q : PIBlockingDequeue T) (v : T) (timeoutMs : Int) : Step Bool T :=
  let isOk := wait_for timeoutMs q.notFull
  let data := if isOk then push_back q.data_queue v else q.data_queue
  { ret := isOk, queue := { q with data_queue := data },
    notified := if isOk then [Signal.cond_var_add_notify_one] else [] }

/-- Member `take()`. -/
def take (q : PIBlockingDequeue T) : Except Stuck (Step T T) := do
  wait q.notEmpty
  let t ← front q.data_queue
  let data ← pop_front q.data_queue
  return { ret := t, queue := { q with data_queue := data },
           notified := [Signal.cond_var_rem_notify_one] }

/-- Member `poll(timeoutMs, defaultVal, isOk)`; the flag stored through `isOk`
is the second component of the returned pair. -/
def pollTimed (q : PIBlockingDequeue T) (timeoutMs : Int) (defaultVal : T) :
    Except Stuck (Step (T × Bool) T) := do
  let isNotEmpty := wait_for timeoutMs q.notEmpty
  if isNotEmpty then
    let t ← front q.data_queue
    let data ← pop_front q.data_queue
    return { ret := (t, isNotEmpty), queue := { q with data_queue := data },
             notified := [Signal.cond_var_rem_notify_one] }
  else
    return { ret := (defaultVal, isNotEmpty), queue := q, notified := [] }

/-- Member `poll(defaultVal, isOk)`, the overload that does not wait; the flag
stored through `isOk` is the second component of the returned pair. -/
def poll (q : PIBlockingDequeue T) (defaultVal : T) : Except Stuck (Step (T × Bool) T) := do
  let isNotEmpty := q.data_queue.length != 0
  if isNotEmpty then
    let t ← front q.data_queue
    let data ← pop_front q.data_queue
    return { ret := (t, isNotEmpty), queue := { q with data_queue := data },
             notified := [Signal.cond_var_rem_notifyOne] }
  else
    return { ret := (defaultVal, isNotEmpty), queue := q, notified := [] }

/-- The loop `for (i = 0; i < count; ++i) { other.push_back(front()); pop_front(); }`
of both `drainTo` overloads, by the number of iterations left; the result is
the source container and the sink after the loop. -/
def drainLoop : Nat → List T → List T → Except Stuck (List T × List T)
  | 0, src, dst => Except.ok (src, dst)
  | n + 1, src, dst => do
    let t ← front src
    let src1 ← pop_front src
    drainLoop n src1 (push_back dst t)

/-- Result of a `drainTo`: the returned count, the source queue and the sink
afterwards, and the notifications issued. -/
structure Drained (S T : Type) where
  /-- Returned count. -/
  count : Nat
  /-- Source queue after the call. -/
  queue : PIBlockingDequeue T
  /-- Sink after the call. -/
  other : S
  /-- Notifications issued by the call. -/
  notified : List Signal
  deriving DecidableEq, Repr

/-- Member `drainTo(Appendable& other, size_t maxCount)`; the sink is a
container whose `push_back` appends at the end. -/
def drainTo (q : PIBlockingDequeue T) (other : List T) (maxCount : Nat) :
    Except Stuck (Drained (List T) T) := do
  let count := if maxCount > q.data_queue.length then q.data_queue.length else maxCount
  let (data, sink) ← drainLoop count q.data_queue other
  return { count := count, queue := { q with data_queue := data }, other := sink,
           notified := [] }

/-- Member `drainTo(PIBlockingDequeue<T>& other, size_t maxCount)`; `other` is a
queue distinct from `q`. -/
def drainToQueue (q other : PIBlockingDequeue T) (maxCount : Nat) :
    Except Stuck (Drained (PIBlockingDequeue T) T) := do
  let count := if maxCount > q.data_queue.length then q.data_queue.length else maxCount
  let otherRemainingCapacity := size_t_sub other.max_size q.data_queue.length
  let count := if count > otherRemainingCapacity then otherRemainingCapacity else count
  let (data, sink) ← drainLoop count q.data_queue other.data_queue
  return { count := count, queue := { q with data_queue := data },
           other := { other with data_queue := sink }, notified := [] }

/-! ## Drivers: sequences of calls made by one caller -/

/-- Calls `offer` with each element of a list in order; the returned flags and
the final queue. -/
def offerAll (q : PIBlockingDequeue T) : List T → List Bool × PIBlockingDequeue T
  | [] => ([], q)
  | x :: xs =>
    let s := q.offer x
    let r := offerAll s.queue xs
    (s.ret :: r.1, r.2)

/-- Calls `put` with each element of a list in order; the final queue. -/
def putAll (q : PIBlockingDequeue T) : List T → Except Stuck (PIBlockingDequeue T)
  | [] => Except.ok q
  | x :: xs => do
    let s ← q.put x
    putAll s.queue xs

/-- Calls `take` the given number of times; the returned values in order and
the final queue. -/
def takeN (q : PIBlockingDequeue T) : Nat → Except Stuck (List T × PIBlockingDequeue T)
  | 0 => Except.ok ([], q)
  | n + 1 => do
    let s ← q.take
    let r ← takeN s.queue n
    return (s.ret :: r.1, r.2)

/-- Calls the instant `poll` the given number of times; the returned pairs in
order and the final queue. -/
def pollN (q : PIBlockingDequeue T) (defaultVal : T) :
    Nat → Except Stuck (List (T × Bool) × PIBlockingDequeue T)
  | 0 => Except.ok ([], q)
  | n + 1 => do
    let s ← q.poll defaultVal
    let r ← pollN s.queue defaultVal n
    return (s.ret :: r.1, r.2)

/-- Calls the timed `poll` the given number of times; the returned pairs in
order and the final queue. -/
def pollTimedN (q : PIBlockingDequeue T) (timeoutMs : Int) (defaultVal : T) :
    Nat → Except Stuck (List (T × Bool) × PIBlockingDequeue T)
  | 0 => Except.ok ([], q)
  | n + 1 => do
    let s ← q.pollTimed timeoutMs defaultVal
    let r ← pollTimedN s.queue timeoutMs defaultVal n
    return (s.ret :: r.1, r.2)

/-- Constructor `PIBlockingDequeue()` with the capacity argument left out: the
default argument is `SIZE_MAX`. -/
def createDefault : PIBlockingDequeue T := create SIZE_MAX

/-- Calls of the public members a queue can receive, with their arguments. -/
inductive Call (T : Type) where
  /-- Call `put(v)`. -/
  | put (v : T)
  /-- Call `offer(v)`. -/
  | offer (v : T)
  /-- Call `offer(v, timeoutMs)`. -/
  | offerTimed (v : T) (timeoutMs : Int)
  /-- Call `take()`. -/
  | take
  /-- Call `poll(timeoutMs, defaultVal)`. -/
  | pollTimed (timeoutMs : Int) (defaultVal : T)
  /-- Call `poll(defaultVal)`. -/
  | poll (defaultVal : T)
  /-- Call `size()`. -/
  | size
  /-- Call `capacity()`. -/
  | capacity
  /-- Call `remainingCapacity()`. -/
  | remainingCapacity
  /-- Call `drainTo(sink, maxCount)` with a container as sink. -/
  | drainTo (sink : List T) (maxCount : Nat)
  /-- Call `drainTo(other, maxCount)` on this queue with another queue as sink. -/
  | drainToQueue (other : PIBlockingDequeue T) (maxCount : Nat)
  /-- Call `source.drainTo(q, maxCount)` made on another queue with this queue as sink. -/
  | drainFrom (source : PIBlockingDequeue T) (maxCount : Nat)

/-- The queue after a call; a call that does not return leaves it as it was. -/
def afterCall (q : PIBlockingDequeue T) : Call T → PIBlockingDequeue T
  | Call.put v => match q.put v with
    | Except.ok r => r.queue
    | Except.error _ => q
  | Call.offer v => (q.offer v).queue
  | Call.offerTimed v timeoutMs => (q.offerTimed v timeoutMs).queue
  | Call.take => match q.take with
    | Except.ok r => r.queue
    | Except.error _ => q
  | Call.pollTimed timeoutMs d => match q.pollTimed timeoutMs d with
    | Except.ok r => r.queue
    | Except.error _ => q
  | Call.poll d => match q.poll d with
    | Except.ok r => r.queue
    | Except.error _ => q
  | Call.size => q
  | Call.capacity => q
  | Call.remainingCapacity => q
  | Call.drainTo sink maxCount => match q.drainTo sink maxCount with
    | Except.ok r => r.queue
    | Except.error _ => q
  | Call.drainToQueue other maxCount => match q.drainToQueue other maxCount with
    | Except.ok r => r.queue
    | Except.error _ => q
  | Call.drainFrom source maxCount => match source.drainToQueue q maxCount with
    | Except.ok r => r.other
    | Except.error _ => q

/-- The queue after a sequence of calls, in order. -/
def afterCalls (q : PIBlockingDequeue T) (calls : List (Call T)) : PIBlockingDequeue T :=
  calls.foldl afterCall q

/-- Whether a call is one of the three inserting members `put`, `offer(v)` and
`offer(v, timeoutMs)`. -/
def Call.isInsertion : Call T → Bool
  | Call.put _ => true
  | Call.offer _ => true
  | Call.offerTimed _ _ => true
  | _ => false

/-! ## The mutexes taken by `drainTo` between two queues -/

/-- An operation on the mutex of a queue; queues are named by numbers. -/
inductive MutexOp where
  /-- Call `lock()` on the mutex of the queue. -/
  | lock (queue : Nat)
  /-- Call `unlock()` on the mutex of the queue. -/
  | unlock (queue : Nat)
  deriving DecidableEq, Repr

/-- Mutex operations of `self.drainTo(other, maxCount)` with a queue as sink, in
program order: `mutex.lock(); other.mutex.lock(); ... other.mutex.unlock();
mutex.unlock();`. -/
def drainToQueueMutexOps (self other : Nat) : List MutexOp :=
  [MutexOp.lock self, MutexOp.lock other, MutexOp.unlock other, MutexOp.unlock self]

/-- The queues whose mutexes a list of operations locks, in order. -/
def lockOrder : List MutexOp → List Nat
  | [] => []
  | MutexOp.lock m :: rest => m :: lockOrder rest
  | MutexOp.unlock _ :: rest => lockOrder rest

/-- Two threads, each with the mutex operations it still has to perform, and
the mutexes held, each with its holder (`false` the first thread, `true` the
second). -/
structure TwoThreads where
  /-- Operations left to the first thread. -/
  first : List MutexOp
  /-- Operations left to the second thread. -/
  second : List MutexOp
  /-- Mutexes held, with the thread holding each. -/
  held : List (Nat × Bool)
  deriving DecidableEq, Repr

namespace TwoThreads

/-- Operations left to a thread. -/
def ops (s : TwoThreads) (who : Bool) : List MutexOp := if who then s.second else s.first

/-- Whether a thread can perform its next operation: `lock()` goes through only
on a mutex nobody holds, `unlock()` always. -/
def canStep (s : TwoThreads) (who : Bool) : Bool :=
  match s.ops who with
  | [] => false
  | MutexOp.lock m :: _ => !(s.held.any fun p => p.1 == m)
  | MutexOp.unlock _ :: _ => true

/-- One operation of the given thread; `none` when the thread has finished or
is blocked in `lock()`. -/
def step (s : TwoThreads) (who : Bool) : Option TwoThreads :=
  if s.canStep who then
    match s.ops who with
    | [] => none
    | MutexOp.lock m :: rest =>
      some (if who then { s with second := rest, held := (m, who) :: s.held }
            else { s with first := rest, held := (m, who) :: s.held })
    | MutexOp.unlock m :: rest =>
      some (if who then { s with second := rest, held := s.held.filter fun p => p.1 != m }
            else { s with first := rest, held := s.held.filter fun p => p.1 != m })
  else none

/-- Runs a schedule: the list says which thread performs each next operation. -/
def run (s : TwoThreads) : List Bool → Option TwoThreads
  | [] => some s
  | who :: rest => match s.step who with
    | none => none
    | some s1 => run s1 rest

/-- Deadlock: both threads still have an operation to perform and neither can
perform it. -/
def deadlocked (s : TwoThreads) : Bool :=
  !s.first.isEmpty && !s.second.isEmpty && !s.canStep false && !s.canStep true

/-- Start of `a.drainTo(b)` on the first thread together with `b.drainTo(a)` on
the second, no mutex being held. -/
def oppositeDrains (a b : Nat) : TwoThreads :=
  { first := drainToQueueMutexOps a b, second := drainToQueueMutexOps b a, held := [] }

end TwoThreads

end PIBlockingDequeue

/-! # PIThreadPoolExecutor: a pool of worker threads

A shallow embedding of `include/piexecutor.h`.  A callable is known by a value
of a type `F`; running it is recorded in a log of the callables run. -/

/-- What a `FunctionWrapper` holds: the runnable given to `execute`, or the
`std::packaged_task` that `submit` builds around its callable. -/
inductive Callable (F : Type) where
  /-- The runnable passed to `execute`. -/
  | runnable (f : F)
  /-- The `std::packaged_task` built by `submit` from its callable. -/
  | packaged_task (f : F)
  deriving DecidableEq, Repr

/-- State of a `FunctionWrapper`: the owning pointer `impl`, null when empty. -/
structure FunctionWrapper (F : Type) where
  /-- The pointer `impl`; `none` is the null pointer. -/
  impl : Option (Callable F)
  deriving DecidableEq, Repr

namespace FunctionWrapper

variable {F : Type}

/-- Default constructor `FunctionWrapper()`: `impl` is null. -/
def empty : FunctionWrapper F := { impl := none }

/-- Constructor `FunctionWrapper(F&& f)`: `impl` points to a new `ImplType` holding `f`. -/
def wrap (f : Callable F) : FunctionWrapper F := { impl := some f }

/-- Conversion `explicit operator bool()`: whether `impl` is not null. -/
def toBool (w : FunctionWrapper F) : Bool := w.impl.isSome

/-- Call `operator()`: `impl->call()` runs the callable held, whose identity is
returned; on a null `impl` the behaviour is undefined. -/
def call (w : FunctionWrapper F) : Except Stuck (Callable F) :=
  match w.impl with
  | none => Except.error Stuck.undefined
  | some f => Except.ok f

/-- Move constructor `FunctionWrapper(FunctionWrapper&& other)`: the new handle
takes `impl` from `other`, whose `impl` becomes null.  The result is the new
handle and `other` afterwards. -/
def moveConstruct (other : FunctionWrapper F) : FunctionWrapper F × FunctionWrapper F :=
  ({ impl := other.impl }, { impl := none })

/-- Move assignment `self = std::move(other)` between two distinct handles:
`self` takes `impl` from `other` (what it held before is destroyed), and the
`impl` of `other` becomes null.  The result is `self` and `other` afterwards. -/
def moveAssign (_self other : FunctionWrapper F) : FunctionWrapper F × FunctionWrapper F :=
  ({ impl := other.impl }, { impl := none })

end FunctionWrapper

/-- The enumeration `thread_command`. -/
inductive thread_command where
  /-- Enumerator `run`, value 0. -/
  | run
  /-- Enumerator `shutdown_c`, value 1. -/
  | shutdown_c
  /-- Enumerator `shutdown_now`, value 2. -/
  | shutdown_now
  deriving DecidableEq, Repr

namespace thread_command

/-- Integer value of an enumerator. -/
def toNat : thread_command → Nat
  | run => 0
  | shutdown_c => 1
  | shutdown_now => 2

/-- Conversion of an enumerator to `bool`: true when its value is not zero. -/
def toBool (c : thread_command) : Bool := c.toNat != 0

end thread_command

/-- A worker thread handle in `threadPool`: whether `join()` was called on it. -/
structure Thread where
  /-- Whether the thread has been joined. -/
  joined : Bool
  deriving DecidableEq, Repr

/-- A `std::future`: whether it is bound to a shared state (`valid()`). -/
structure Future where
  /-- Result of `valid()`. -/
  valid : Bool
  deriving DecidableEq, Repr

/-- State of a `PIThreadPoolExecutorTemplate`: its three fields. -/
structure PIThreadPoolExecutorTemplate (F : Type) where
  /-- The atomic field `thread_command_`. -/
  thread_command_ : thread_command
  /-- The task queue. -/
  taskQueue : PIBlockingDequeue (FunctionWrapper F)
  /-- The worker thread handles. -/
  threadPool : List Thread
  deriving DecidableEq, Repr

/-- Result of a member function of the executor: the returned value, the
executor afterwards and the arguments of its calls of `taskQueue.offer`. -/
structure Outcome (R F : Type) where
  /-- Returned value. -/
  ret : R
  /-- Executor after the call. -/
  executor : PIThreadPoolExecutorTemplate F
  /-- Handles passed to `taskQueue.offer`, in order. -/
  offered : List (FunctionWrapper F)
  deriving DecidableEq, Repr

/-- Result of `awaitTermination`: the returned flag, the time in milliseconds
the caller spent in the call, and the worker handles afterwards. -/
structure Awaited where
  /-- Returned value. -/
  ret : Bool
  /-- Milliseconds between the call and its return. -/
  elapsed : Nat
  /-- Worker handles after the call. -/
  threadPool : List Thread
  deriving DecidableEq, Repr

namespace PIThreadPoolExecutorTemplate

variable {F : Type}

/-- Member `makePool(corePoolSize)`: pushes `corePoolSize` new threads, each
running the worker loop. -/
def makePool (e : PIThreadPoolExecutorTemplate F) (corePoolSize : Nat) :
    PIThreadPoolExecutorTemplate F :=
  { e with threadPool := e.threadPool ++ List.replicate corePoolSize { joined := false } }

/-- Constructor `PIThreadPoolExecutorTemplate(corePoolSize)`: the command is
`run`, the queue is default-constructed, and the pool is made. -/
def construct (corePoolSize : Nat) : PIThreadPoolExecutorTemplate F :=
  makePool { thread_command_ := thread_command.run,
             taskQueue := PIBlockingDequeue.createDefault,
             threadPool := [] } corePoolSize

/-- Member `submit(callable)`. -/
def submit (e : PIThreadPoolExecutorTemplate F) (callable : F) : Outcome Future F :=
  if e.thread_command_ = thread_command.run then
    let functionWrapper := FunctionWrapper.wrap (Callable.packaged_task callable)
    let s := e.taskQueue.offer functionWrapper
    { ret := { valid := true }, executor := { e with taskQueue := s.queue },
      offered := [functionWrapper] }
  else
    { ret := { valid := false }, executor := e, offered := [] }

/-- Member `execute(runnable)`. -/
def execute (e : PIThreadPoolExecutorTemplate F) (runnable : F) : Outcome Unit F :=
  if e.thread_command_ = thread_command.run then
    let function_wrapper := FunctionWrapper.wrap (Callable.runnable runnable)
    let s := e.taskQueue.offer function_wrapper
    { ret := (), executor := { e with taskQueue := s.queue }, offered := [function_wrapper] }
  else
    { ret := (), executor := e, offered := [] }

/-- Member `shutdown()`. -/
def shutdown (e : PIThreadPoolExecutorTemplate F) : PIThreadPoolExecutorTemplate F :=
  { e with thread_command_ := thread_command.shutdown_c }

/-- Member `shutdownNow()`. -/
def shutdownNow (e : PIThreadPoolExecutorTemplate F) : PIThreadPoolExecutorTemplate F :=
  { e with thread_command_ := thread_command.shutdown_now }

/-- Member `isShutdown()`: `thread_command_` converted to `bool`. -/
def isShutdown (e : PIThreadPoolExecutorTemplate F) : Bool := e.thread_command_.toBool

/-- The loop of `awaitTermination` from worker index `i` on.  Time is counted in
milliseconds from the call; `now` is the time elapsed so far and `finishesAt j`
the time at which the function of worker `j` returns, so that `join()` on
worker `j` returns at `max now (finishesAt j)`.  Times are taken to fit in `int`. -/
def awaitLoop (timeoutMs : Int) (finishesAt : Nat → Nat) :
    List Thread → Nat → Nat → Awaited
  | [], _, now => { ret := true, elapsed := now, threadPool := [] }
  | t :: rest, i, now =>
    let dif : Int := timeoutMs - (now : Int)
    if dif < 0 then
      { ret := false, elapsed := now, threadPool := t :: rest }
    else
      let r := awaitLoop timeoutMs finishesAt rest (i + 1) (max now (finishesAt i))
      { r with threadPool := { t with joined := true } :: r.threadPool }

/-- Member `awaitTermination(timeoutMs)`; `finishesAt j` is the time, in
milliseconds from the call, at which the function of worker `j` returns. -/
def awaitTermination (e : PIThreadPoolExecutorTemplate F) (timeoutMs : Int)
    (finishesAt : Nat → Nat) : Awaited :=
  awaitLoop timeoutMs finishesAt e.threadPool 0 0

/-- One pass through the body of the worker loop of `makePool`:
`runnable = taskQueue.poll(100); if (runnable) runnable();`.  The log lists the
callables run so far. -/
def workerIteration (e : PIThreadPoolExecutorTemplate F) (invoked : List (Callable F)) :
    Except Stuck (PIThreadPoolExecutorTemplate F × List (Callable F)) := do
  let s ← e.taskQueue.pollTimed 100 FunctionWrapper.empty
  let runnable := s.ret.1
  let e1 := { e with taskQueue := s.queue }
  if runnable.toBool then
    let f ← runnable.call
    return (e1, invoked ++ [f])
  else
    return (e1, invoked)

/-- The condition `!thread_command_ || taskQueue.size() != 0` of the worker loop. -/
def loopCondition (e : PIThreadPoolExecutorTemplate F) : Bool :=
  !e.thread_command_.toBool || e.taskQueue.size != 0

/-- The `do ... while` loop of one worker, with a bound on the number of
passes: `none` when the bound is used up before the loop ends, otherwise the
executor and the log when the loop is left (or the failure of a pass). -/
def workerLoop : Nat → PIThreadPoolExecutorTemplate F → List (Callable F) →
    Option (Except Stuck (PIThreadPoolExecutorTemplate F × List (Callable F)))
  | 0, _, _ => none
  | fuel + 1, e, invoked =>
    match workerIteration e invoked with
    | Except.error s => some (Except.error s)
    | Except.ok (e1, invoked1) =>
      if loopCondition e1 then workerLoop fuel e1 invoked1
      else some (Except.ok (e1, invoked1))

/-- Result of the destructor: the command stored by then, the outcome of its
`awaitTermination(1000)` and the worker handles deleted, in the order of
deletion. -/
structure Destroyed where
  /-- Value of `thread_command_` when the workers are deleted. -/
  thread_command_ : thread_command
  /-- Outcome of `awaitTermination(1000)`. -/
  awaited : Awaited
  /-- Handles deleted, in order; `joined` tells whether the handle was joined before. -/
  deleted : List Thread
  deriving DecidableEq, Repr

/-- The loop `while (threadPool.size() > 0) { thread = back(); pop_back(); delete thread; }`
of the destructor: the handles deleted, in order. -/
def deleteLoop : List Thread → List Thread
  | [] => []
  | t :: rest => deleteLoop rest ++ [t]

/-- Destructor `~PIThreadPoolExecutorTemplate()`: `shutdownNow()`,
`awaitTermination(1000)`, then every handle is deleted; `finishesAt j` is the
time, in milliseconds from the call, at which the function of worker `j` returns. -/
def destroy (e : PIThreadPoolExecutorTemplate F) (finishesAt : Nat → Nat) : Destroyed :=
  let e1 := shutdownNow e
  let a := awaitTermination e1 1000 finishesAt
  { thread_command_ := e1.thread_command_, awaited := a, deleted := deleteLoop a.threadPool }

/-- Calls of the public members an executor can receive, with their arguments. -/
inductive ExecutorCall (F : Type) where
  /-- Call `submit(callable)`. -/
  | submit (callable : F)
  /-- Call `execute(runnable)`. -/
  | execute (runnable : F)
  /-- Call `shutdown()`. -/
  | shutdown
  /-- Call `shutdownNow()`. -/
  | shutdownNow
  /-- Call `isShutdown()`. -/
  | isShutdown
  /-- Call `awaitTermination(timeoutMs)`, with the times at which the workers finish. -/
  | awaitTermination (timeoutMs : Int) (finishesAt : Nat → Nat)

/-- The executor after a call. -/
def afterCall (e : PIThreadPoolExecutorTemplate F) : ExecutorCall F → PIThreadPoolExecutorTemplate F
  | ExecutorCall.submit callable => (e.submit callable).executor
  | ExecutorCall.execute runnable => (e.execute runnable).executor
  | ExecutorCall.shutdown => e.shutdown
  | ExecutorCall.shutdownNow => e.shutdownNow
  | ExecutorCall.isShutdown => e
  | ExecutorCall.awaitTermination timeoutMs finishesAt =>
    { e with threadPool := (e.awaitTermination timeoutMs finishesAt).threadPool }

/-- The executor after a sequence of calls, in order. -/
def afterCalls (e : PIThreadPoolExecutorTemplate F) (calls : List (ExecutorCall F)) :
    PIThreadPoolExecutorTemplate F :=
  calls.foldl afterCall e

end PIThreadPoolExecutorTemplate

namespace PIBlockingDequeue

variable {T : Type}

/-! ## Basic facts -/

theorem notFull_iff (q : PIBlockingDequeue T) :
    q.notFull = true ↔ q.data_queue.length < q.max_size := by
  simp [notFull]

theorem offer_of_lt (q : PIBlockingDequeue T) (v : T) (h : q.data_queue.length < q.max_size) :
    q.offer v = { ret := true, queue := { q with data_queue := q.data_queue ++ [v] },
                  notified := [Signal.cond_var_add_notify_one] } := by
  simp [offer, push_back, Nat.not_le.mpr h]

theorem offer_of_ge (q : PIBlockingDequeue T) (v : T) (h : q.max_size ≤ q.data_queue.length) :
    q.offer v = { ret := false, queue := q, notified := [] } := by
  simp [offer, h]

theorem put_of_lt (q : PIBlockingDequeue T) (v : T) (h : q.data_queue.length < q.max_size) :
    q.put v = Except.ok { ret := (), queue := { q with data_queue := q.data_queue ++ [v] },
                          notified := [Signal.cond_var_add_notify_one] } := by
  simp [put, wait, notFull, push_back, h]

theorem put_of_ge (q : PIBlockingDequeue T) (v : T) (h : q.max_size ≤ q.data_queue.length) :
    q.put v = Except.error Stuck.blocked := by
  simp [put, wait, notFull, Nat.not_lt.mpr h]

theorem take_nil (cap : Nat) :
    take ({ data_queue := [], max_size := cap } : PIBlockingDequeue T)
      = Except.error Stuck.blocked := by
  rfl

theorem take_cons (x : T) (rest : List T) (cap : Nat) :
    take { data_queue := x :: rest, max_size := cap }
      = Except.ok { ret := x, queue := { data_queue := rest, max_size := cap },
                    notified := [Signal.cond_var_rem_notify_one] } := by
  rfl

theorem poll_nil (cap : Nat) (d : T) :
    poll { data_queue := [], max_size := cap } d
      = Except.ok { ret := (d, false), queue := { data_queue := [], max_size := cap },
                    notified := [] } := by
  rfl

theorem poll_cons (x : T) (rest : List T) (cap : Nat) (d : T) :
    poll { data_queue := x :: rest, max_size := cap } d
      = Except.ok { ret := (x, true), queue := { data_queue := rest, max_size := cap },
                    notified := [Signal.cond_var_rem_notifyOne] } := by
  rfl

theorem pollTimed_nil (cap : Nat) (timeoutMs : Int) (d : T) :
    pollTimed { data_queue := [], max_size := cap } timeoutMs d
      = Except.ok { ret := (d, false), queue := { data_queue := [], max_size := cap },
                    notified := [] } := by
  rfl

theorem pollTimed_cons (x : T) (rest : List T) (cap : Nat) (timeoutMs : Int) (d : T) :
    pollTimed { data_queue := x :: rest, max_size := cap } timeoutMs d
      = Except.ok { ret := (x, true), queue := { data_queue := rest, max_size := cap },
                    notified := [Signal.cond_var_rem_notify_one] } := by
  rfl

theorem offerTimed_eq (q : PIBlockingDequeue T) (v : T) (timeoutMs : Int) :
    q.offerTimed v timeoutMs = q.offer v := by
  by_cases h : q.data_queue.length < q.max_size
  · rw [offer_of_lt q v h]
    simp [offerTimed, wait_for, notFull, push_back, h]
  · rw [offer_of_ge q v (Nat.not_lt.mp h)]
    simp [offerTimed, wait_for, notFull, h]

theorem offerAll_eq (xs : List T) : ∀ q : PIBlockingDequeue T,
    q.data_queue.length + xs.length ≤ q.max_size →
    offerAll q xs = (List.replicate xs.length true,
                     { data_queue := q.data_queue ++ xs, max_size := q.max_size }) := by
  induction xs with
  | nil => intro q _; simp [offerAll]
  | cons x xs ih =>
    intro q h
    simp only [List.length_cons] at h
    have hlt : q.data_queue.length < q.max_size := by omega
    simp only [offerAll, offer_of_lt q x hlt]
    rw [ih]
    · simp [List.replicate_succ]
    · simp only [List.length_append, List.length_singleton]
      omega

theorem putAll_eq (xs : List T) : ∀ q : PIBlockingDequeue T,
    q.data_queue.length + xs.length ≤ q.max_size →
    putAll q xs = Except.ok { data_queue := q.data_queue ++ xs, max_size := q.max_size } := by
  induction xs with
  | nil => intro q _; simp [putAll]
  | cons x xs ih =>
    intro q h
    simp only [List.length_cons] at h
    have hlt : q.data_queue.length < q.max_size := by omega
    simp only [putAll, put_of_lt q x hlt]
    show putAll _ xs = _
    rw [ih]
    · simp
    · simp only [List.length_append, List.length_singleton]
      omega

theorem takeN_append (xs ys : List T) (cap : Nat) :
    takeN { data_queue := xs ++ ys, max_size := cap } xs.length
      = Except.ok (xs, { data_queue := ys, max_size := cap }) := by
  induction xs with
  | nil => rfl
  | cons x xs ih =>
    simp only [List.cons_append, List.length_cons, takeN, take_cons]
    show (do
      let r ← takeN { data_queue := xs ++ ys, max_size := cap } xs.length
      Except.ok (x :: r.1, r.2)) = _
    rw [ih]
    rfl

theorem pollN_append (xs ys : List T) (cap : Nat) (d : T) :
    pollN { data_queue := xs ++ ys, max_size := cap } d xs.length
      = Except.ok (xs.map (fun x => (x, true)), { data_queue := ys, max_size := cap }) := by
  induction xs with
  | nil => rfl
  | cons x xs ih =>
    simp only [List.cons_append, List.length_cons, pollN, poll_cons]
    show (do
      let r ← pollN { data_queue := xs ++ ys, max_size := cap } d xs.length
      Except.ok ((x, true) :: r.1, r.2)) = _
    rw [ih]
    rfl

theorem pollTimedN_append (xs ys : List T) (cap : Nat) (timeoutMs : Int) (d : T) :
    pollTimedN { data_queue := xs ++ ys, max_size := cap } timeoutMs d xs.length
      = Except.ok (xs.map (fun x => (x, true)), { data_queue := ys, max_size := cap }) := by
  induction xs with
  | nil => rfl
  | cons x xs ih =>
    simp only [List.cons_append, List.length_cons, pollTimedN, pollTimed_cons]
    show (do
      let r ← pollTimedN { data_queue := xs ++ ys, max_size := cap } timeoutMs d xs.length
      Except.ok ((x, true) :: r.1, r.2)) = _
    rw [ih]
    rfl

theorem drainLoop_eq (n : Nat) : ∀ src dst : List T, n ≤ src.length →
    drainLoop n src dst = Except.ok (src.drop n, dst ++ src.take n) := by
  induction n with
  | zero => intro src dst _; simp [drainLoop]
  | succ n ih =>
    intro src dst h
    cases src with
    | nil => simp at h
    | cons x rest =>
      simp only [List.length_cons, Nat.add_le_add_iff_right] at h
      show drainLoop n rest (push_back dst x) = _
      rw [ih rest (push_back dst x) h]
      simp [push_back]

theorem drainTo_eq (q : PIBlockingDequeue T) (other : List T) (maxCount : Nat) :
    q.drainTo other maxCount
      = Except.ok { count := min maxCount q.data_queue.length,
                    queue := { data_queue := q.data_queue.drop (min maxCount q.data_queue.length),
                               max_size := q.max_size },
                    other := other ++ q.data_queue.take (min maxCount q.data_queue.length),
                    notified := [] } := by
  have hcount : (if maxCount > q.data_queue.length then q.data_queue.length else maxCount)
      = min maxCount q.data_queue.length := by
    split <;> omega
  simp only [drainTo, hcount]
  rw [drainLoop_eq _ _ _ (Nat.min_le_right _ _)]
  rfl

theorem drainToQueue_eq (q other : PIBlockingDequeue T) (maxCount : Nat) :
    q.drainToQueue other maxCount
      = Except.ok
          { count := min (min maxCount q.data_queue.length)
                       (size_t_sub other.max_size q.data_queue.length),
            queue := { data_queue := q.data_queue.drop
                         (min (min maxCount q.data_queue.length)
                            (size_t_sub other.max_size q.data_queue.length)),
                       max_size := q.max_size },
            other := { data_queue := other.data_queue ++ q.data_queue.take
                         (min (min maxCount q.data_queue.length)
                            (size_t_sub other.max_size q.data_queue.length)),
                       max_size := other.max_size },
            notified := [] } := by
  have hcount : (if maxCount > q.data_queue.length then q.data_queue.length else maxCount)
      = min maxCount q.data_queue.length := by
    split <;> omega
  have hcap : (if min maxCount q.data_queue.length
        > size_t_sub other.max_size q.data_queue.length
      then size_t_sub other.max_size q.data_queue.length
      else min maxCount q.data_queue.length)
      = min (min maxCount q.data_queue.length)
          (size_t_sub other.max_size q.data_queue.length) := by
    split <;> omega
  simp only [drainToQueue, hcount, hcap]
  rw [drainLoop_eq _ _ _ (by omega)]
  rfl

theorem offer_max_size (q : PIBlockingDequeue T) (v : T) :
    (q.offer v).queue.max_size = q.max_size := by
  rw [← offerTimed_eq q v 0]
  rfl

theorem afterCall_max_size (q : PIBlockingDequeue T) (c : Call T) :
    (afterCall q c).max_size = q.max_size := by
  cases q with
  | mk data cap =>
    cases c with
    | put v =>
      by_cases hlt : data.length < cap
      · simp only [afterCall, put_of_lt (mk data cap) v hlt]
      · simp only [afterCall, put_of_ge (mk data cap) v (Nat.not_lt.mp hlt)]
    | offer v => exact offer_max_size _ v
    | offerTimed v timeoutMs => rfl
    | take => cases data <;> rfl
    | pollTimed timeoutMs d => cases data <;> rfl
    | poll d => cases data <;> rfl
    | size => rfl
    | capacity => rfl
    | remainingCapacity => rfl
    | drainTo sink maxCount => simp only [afterCall, drainTo_eq]
    | drainToQueue other maxCount => simp only [afterCall, drainToQueue_eq]
    | drainFrom source maxCount => simp only [afterCall, drainToQueue_eq]

theorem afterCalls_max_size (calls : List (Call T)) : ∀ q : PIBlockingDequeue T,
    (afterCalls q calls).max_size = q.max_size := by
  induction calls with
  | nil => intro q; rfl
  | cons c calls ih =>
    intro q
    show (afterCalls (afterCall q c) calls).max_size = q.max_size
    rw [ih, afterCall_max_size]

theorem remainingCapacity_of_le (q : PIBlockingDequeue T)
    (hsize : q.data_queue.length ≤ q.max_size) (hcap : q.max_size ≤ SIZE_MAX) :
    q.remainingCapacity = q.max_size - q.data_queue.length := by
  have hS : SIZE_MAX = 18446744073709551615 := by decide
  simp only [remainingCapacity, size_t_sub, hS] at *
  omega

theorem afterCall_capacity_zero (data : List T) (c : Call T) (hc : c.isInsertion = true) :
    afterCall { data_queue := data, max_size := 0 } c = { data_queue := data, max_size := 0 } := by
  cases c with
  | put v => simp only [afterCall, put_of_ge (mk data 0) v (Nat.zero_le _)]
  | offer v => simp only [afterCall, offer_of_ge (mk data 0) v (Nat.zero_le _)]
  | offerTimed v timeoutMs =>
    simp only [afterCall, offerTimed_eq, offer_of_ge (mk data 0) v (Nat.zero_le _)]
  | take => simp [Call.isInsertion] at hc
  | pollTimed timeoutMs d => simp [Call.isInsertion] at hc
  | poll d => simp [Call.isInsertion] at hc
  | size => simp [Call.isInsertion] at hc
  | capacity => simp [Call.isInsertion] at hc
  | remainingCapacity => simp [Call.isInsertion] at hc
  | drainTo sink maxCount => simp [Call.isInsertion] at hc
  | drainToQueue other maxCount => simp [Call.isInsertion] at hc
  | drainFrom source maxCount => simp [Call.isInsertion] at hc

theorem afterCalls_capacity_zero (data : List T) (calls : List (Call T))
    (hc : ∀ c ∈ calls, c.isInsertion = true) :
    afterCalls { data_queue := data, max_size := 0 } calls
      = { data_queue := data, max_size := 0 } := by
  induction calls with
  | nil => rfl
  | cons c calls ih =>
    show afterCalls (afterCall { data_queue := data, max_size := 0 } c) calls = _
    rw [afterCall_capacity_zero data c (hc c (List.mem_cons_self c calls))]
    exact ih (fun c1 h1 => hc c1 (List.mem_cons_of_mem c h1))

theorem oppositeDrains_run (a b : Nat) (h : a ≠ b) :
    (TwoThreads.oppositeDrains a b).run [false, true]
      = some { first := [MutexOp.lock b, MutexOp.unlock b, MutexOp.unlock a],
               second := [MutexOp.lock a, MutexOp.unlock a, MutexOp.unlock b],
               held := [(b, true), (a, false)] } := by
  have hba : b ≠ a := fun hb => h hb.symm
  simp [TwoThreads.run, TwoThreads.step, TwoThreads.canStep, TwoThreads.ops,
    TwoThreads.oppositeDrains, drainToQueueMutexOps, h, hba]

theorem oppositeDrains_deadlocked (a b : Nat) :
    TwoThreads.deadlocked
      { first := [MutexOp.lock b, MutexOp.unlock b, MutexOp.unlock a],
        second := [MutexOp.lock a, MutexOp.unlock a, MutexOp.unlock b],
        held := [(b, true), (a, false)] } = true := by
  simp [TwoThreads.deadlocked, TwoThreads.canStep, TwoThreads.ops]

end PIBlockingDequeue

namespace PIThreadPoolExecutorTemplate

variable {F : Type}

/-! ## Basic facts about the executor -/

theorem toBool_iff (c : thread_command) : c.toBool = true ↔ c ≠ thread_command.run := by
  cases c <;> simp [thread_command.toBool, thread_command.toNat]

theorem workerIteration_nil (cmd : thread_command) (cap : Nat) (pool : List Thread)
    (invoked : List (Callable F)) :
    workerIteration { thread_command_ := cmd, taskQueue := { data_queue := [], max_size := cap },
                      threadPool := pool } invoked
      = Except.ok ({ thread_command_ := cmd, taskQueue := { data_queue := [], max_size := cap },
                     threadPool := pool }, invoked) := rfl

theorem workerIteration_cons (cmd : thread_command) (f : Callable F)
    (rest : List (FunctionWrapper F)) (cap : Nat) (pool : List Thread)
    (invoked : List (Callable F)) :
    workerIteration { thread_command_ := cmd,
                      taskQueue := { data_queue := FunctionWrapper.wrap f :: rest,
                                     max_size := cap },
                      threadPool := pool } invoked
      = Except.ok ({ thread_command_ := cmd,
                     taskQueue := { data_queue := rest, max_size := cap },
                     threadPool := pool }, invoked ++ [f]) := rfl

theorem workerIteration_cons_empty (cmd : thread_command)
    (rest : List (FunctionWrapper F)) (cap : Nat) (pool : List Thread)
    (invoked : List (Callable F)) :
    workerIteration { thread_command_ := cmd,
                      taskQueue := { data_queue := FunctionWrapper.empty :: rest,
                                     max_size := cap },
                      threadPool := pool } invoked
      = Except.ok ({ thread_command_ := cmd,
                     taskQueue := { data_queue := rest, max_size := cap },
                     threadPool := pool }, invoked) := rfl

theorem loopCondition_of_not_run (cmd : thread_command) (hcmd : cmd ≠ thread_command.run)
    (queue : PIBlockingDequeue (FunctionWrapper F)) (pool : List Thread) :
    loopCondition { thread_command_ := cmd, taskQueue := queue, threadPool := pool }
      = (queue.size != 0) := by
  cases cmd <;> simp_all [loopCondition, thread_command.toBool, thread_command.toNat]

theorem workerLoop_shutdown_kind (c1 c2 : thread_command) (h1 : c1 ≠ thread_command.run)
    (h2 : c2 ≠ thread_command.run) (cap : Nat) (pool : List Thread) (fuel : Nat) :
    ∀ (data : List (FunctionWrapper F)) (invoked : List (Callable F)),
      (workerLoop fuel { thread_command_ := c1,
                         taskQueue := { data_queue := data, max_size := cap },
                         threadPool := pool } invoked).map
          (Except.map fun r => (r.1.taskQueue, r.2))
        = (workerLoop fuel { thread_command_ := c2,
                             taskQueue := { data_queue := data, max_size := cap },
                             threadPool := pool } invoked).map
            (Except.map fun r => (r.1.taskQueue, r.2)) := by
  induction fuel with
  | zero => intro data invoked; rfl
  | succ n ih =>
    intro data invoked
    cases data with
    | nil =>
      simp only [workerLoop, workerIteration_nil, loopCondition_of_not_run c1 h1,
        loopCondition_of_not_run c2 h2]
      rfl
    | cons w rest =>
      cases w with
      | mk impl =>
        cases impl with
        | none =>
          have hw : ({ impl := none } : FunctionWrapper F) = FunctionWrapper.empty := rfl
          simp only [hw, workerLoop, workerIteration_cons_empty,
            loopCondition_of_not_run c1 h1, loopCondition_of_not_run c2 h2]
          by_cases hsize : ((({ data_queue := rest, max_size := cap } :
              PIBlockingDequeue (FunctionWrapper F)).size != 0) = true)
          · rw [if_pos hsize, if_pos hsize]
            exact ih rest invoked
          · rw [if_neg hsize, if_neg hsize]
            rfl
        | some f =>
          have hw : ({ impl := some f } : FunctionWrapper F) = FunctionWrapper.wrap f := rfl
          simp only [hw, workerLoop, workerIteration_cons,
            loopCondition_of_not_run c1 h1, loopCondition_of_not_run c2 h2]
          by_cases hsize : ((({ data_queue := rest, max_size := cap } :
              PIBlockingDequeue (FunctionWrapper F)).size != 0) = true)
          · rw [if_pos hsize, if_pos hsize]
            exact ih rest (invoked ++ [f])
          · rw [if_neg hsize, if_neg hsize]
            rfl

theorem afterCall_not_running (e : PIThreadPoolExecutorTemplate F) (c : ExecutorCall F)
    (h : e.thread_command_ ≠ thread_command.run) :
    (afterCall e c).thread_command_ ≠ thread_command.run
    ∧ (afterCall e c).taskQueue = e.taskQueue := by
  cases c with
  | submit callable => simp [afterCall, submit, h]
  | execute runnable => simp [afterCall, execute, h]
  | shutdown => simp [afterCall, shutdown]
  | shutdownNow => simp [afterCall, shutdownNow]
  | isShutdown => exact ⟨h, rfl⟩
  | awaitTermination timeoutMs finishesAt => exact ⟨h, rfl⟩

theorem afterCalls_not_running (calls : List (ExecutorCall F)) :
    ∀ e : PIThreadPoolExecutorTemplate F, e.thread_command_ ≠ thread_command.run →
      (afterCalls e calls).thread_command_ ≠ thread_command.run
      ∧ (afterCalls e calls).taskQueue = e.taskQueue := by
  induction calls with
  | nil => intro e h; exact ⟨h, rfl⟩
  | cons c calls ih =>
    intro e h
    have hstep := afterCall_not_running e c h
    have hrest := ih (afterCall e c) hstep.1
    exact ⟨hrest.1, hrest.2.trans hstep.2⟩

theorem workerIteration_ok (e : PIThreadPoolExecutorTemplate F) (invoked : List (Callable F)) :
    ∃ r, workerIteration e invoked = Except.ok r := by
  cases e with
  | mk cmd queue pool =>
    cases queue with
    | mk data cap =>
      cases data with
      | nil => exact ⟨_, workerIteration_nil cmd cap pool invoked⟩
      | cons w rest =>
        cases w with
        | mk impl =>
          cases impl with
          | none => exact ⟨_, workerIteration_cons_empty cmd rest cap pool invoked⟩
          | some f => exact ⟨_, workerIteration_cons cmd f rest cap pool invoked⟩

theorem workerLoop_no_error (fuel : Nat) : ∀ (e : PIThreadPoolExecutorTemplate F)
    (invoked : List (Callable F)) (s : Stuck),
    workerLoop fuel e invoked ≠ some (Except.error s) := by
  induction fuel with
  | zero =>
    intro e invoked s h
    simp [workerLoop] at h
  | succ n ih =>
    intro e invoked s h
    obtain ⟨r, hr⟩ := workerIteration_ok e invoked
    obtain ⟨e1, invoked1⟩ := r
    simp only [workerLoop, hr] at h
    by_cases hc : loopCondition e1 = true
    · rw [if_pos hc] at h
      exact ih e1 invoked1 s h
    · rw [if_neg hc] at h
      simp at h

end PIThreadPoolExecutorTemplate

namespace PIBlockingDequeue

variable {T : Type}

/-! ## The capacity bound -/

/-- C1: from a queue with `size <= capacity`, each of `offer(item)`,
`offer(item, timeoutMs)`, `put(item)`, `take()`, `poll(timeoutMs, default)` and
`poll(default)` leaves a queue with `size <= capacity`.  The two offers and the
two polls always return; `put` and `take` either stay blocked in their wait or
return with the bound kept. -/
theorem size_le_capacity_preserved (q : PIBlockingDequeue T) (v d : T) (timeoutMs : Int)
    (h : q.size ≤ q.capacity) :
    (q.offer v).queue.size ≤ (q.offer v).queue.capacity
    ∧ (q.offerTimed v timeoutMs).queue.size ≤ (q.offerTimed v timeoutMs).queue.capacity
    ∧ (q.put v = Except.error Stuck.blocked
        ∨ ∃ r, q.put v = Except.ok r ∧ r.queue.size ≤ r.queue.capacity)
    ∧ (q.take = Except.error Stuck.blocked
        ∨ ∃ r, q.take = Except.ok r ∧ r.queue.size ≤ r.queue.capacity)
    ∧ (∃ r, q.pollTimed timeoutMs d = Except.ok r ∧ r.queue.size ≤ r.queue.capacity)
    ∧ (∃ r, q.poll d = Except.ok r ∧ r.queue.size ≤ r.queue.capacity) := by
  obtain ⟨data, cap⟩ := q
  simp only [size, capacity] at h
  have hoffer : ((mk data cap).offer v).queue.size ≤ ((mk data cap).offer v).queue.capacity := by
    by_cases hlt : data.length < cap
    · rw [offer_of_lt _ v hlt]
      simp only [size, capacity, List.length_append, List.length_singleton]
      omega
    · rw [offer_of_ge _ v (Nat.not_lt.mp hlt)]
      exact h
  refine ⟨hoffer, by rw [offerTimed_eq]; exact hoffer, ?_, ?_, ?_, ?_⟩
  · by_cases hlt : data.length < cap
    · refine Or.inr ⟨_, put_of_lt _ v hlt, ?_⟩
      simp only [size, capacity, List.length_append, List.length_singleton]
      omega
    · exact Or.inl (put_of_ge _ v (Nat.not_lt.mp hlt))
  · cases data with
    | nil => exact Or.inl (take_nil cap)
    | cons x rest =>
      refine Or.inr ⟨_, take_cons x rest cap, ?_⟩
      simp only [size, capacity, List.length_cons] at h ⊢
      omega
  · cases data with
    | nil => exact ⟨_, pollTimed_nil cap timeoutMs d, h⟩
    | cons x rest =>
      refine ⟨_, pollTimed_cons x rest cap timeoutMs d, ?_⟩
      simp only [size, capacity, List.length_cons] at h ⊢
      omega
  · cases data with
    | nil => exact ⟨_, poll_nil cap d, h⟩
    | cons x rest =>
      refine ⟨_, poll_cons x rest cap d, ?_⟩
      simp only [size, capacity, List.length_cons] at h ⊢
      omega

/-- C1 at the full queue `[1, 2]` of capacity 2, for `offer(3)`. -/
theorem size_le_capacity_preserved_witness :
    (⟨[1, 2], 2⟩ : PIBlockingDequeue Nat).size ≤ (⟨[1, 2], 2⟩ : PIBlockingDequeue Nat).capacity
    ∧ ((⟨[1, 2], 2⟩ : PIBlockingDequeue Nat).offer 3).queue.size
        ≤ ((⟨[1, 2], 2⟩ : PIBlockingDequeue Nat).offer 3).queue.capacity :=
  ⟨by decide, (size_le_capacity_preserved ⟨[1, 2], 2⟩ 3 0 100 (by decide)).1⟩

/-! ## The non-blocking offer -/

/-- C2: `offer(item)` returns false exactly when `size >= capacity`, and then
the queue is unchanged; otherwise it returns true and the queue is the old
items followed by the item.  On an empty queue of capacity 1 the first offer
succeeds and the second fails. -/
theorem offer_false_iff_full (q : PIBlockingDequeue T) (v : T) :
    ((q.offer v).ret = false ↔ q.size ≥ q.capacity)
    ∧ q.offer v =
        (if q.size ≥ q.capacity then { ret := false, queue := q, notified := [] }
         else { ret := true, queue := ⟨q.data_queue ++ [v], q.max_size⟩,
                notified := [Signal.cond_var_add_notify_one] })
    ∧ (∀ a b : T, ((create 1).offer a).ret = true
        ∧ (((create 1).offer a).queue.offer b).ret = false
        ∧ (((create 1).offer a).queue.offer b).queue = ⟨[a], 1⟩) := by
  refine ⟨?_, ?_, fun a b => ⟨rfl, rfl, rfl⟩⟩
  · by_cases hlt : q.data_queue.length < q.max_size
    · rw [offer_of_lt q v hlt]
      simp only [size, capacity, ge_iff_le]
      exact ⟨fun hf => (by cases hf), fun hge => (by omega)⟩
    · rw [offer_of_ge q v (Nat.not_lt.mp hlt)]
      simp only [size, capacity, ge_iff_le, true_iff]
      omega
  · by_cases hlt : q.data_queue.length < q.max_size
    · rw [offer_of_lt q v hlt, if_neg]
      simp only [size, capacity, ge_iff_le]
      omega
    · rw [offer_of_ge q v (Nat.not_lt.mp hlt), if_pos]
      simp only [size, capacity, ge_iff_le]
      omega

/-! ## First in, first out -/

/-- C3: the queue is strict FIFO.  For every capacity `C` and list `xs` with
`length xs <= C`, offering (or putting) the elements of `xs` in order into an
empty queue of capacity `C` succeeds for each element, and `length xs` calls of
`take()` (or of either `poll`) then return exactly the elements of `xs` in the
same order, leaving the queue empty. -/
theorem fifo_order (C : Nat) (xs : List T) (d : T) (timeoutMs : Int) (h : xs.length ≤ C) :
    offerAll (create C) xs = (List.replicate xs.length true, ⟨xs, C⟩)
    ∧ putAll (create C) xs = Except.ok ⟨xs, C⟩
    ∧ takeN ⟨xs, C⟩ xs.length = Except.ok (xs, create C)
    ∧ pollN ⟨xs, C⟩ d xs.length = Except.ok (xs.map (fun x => (x, true)), create C)
    ∧ pollTimedN ⟨xs, C⟩ timeoutMs d xs.length
        = Except.ok (xs.map (fun x => (x, true)), create C) := by
  have hoff := offerAll_eq xs (create C) (by simpa [create] using h)
  have hput := putAll_eq xs (create C) (by simpa [create] using h)
  have htake := takeN_append xs [] C
  have hpoll := pollN_append xs [] C d
  have htimed := pollTimedN_append xs [] C timeoutMs d
  simp only [List.append_nil] at htake hpoll htimed
  simp only [create, List.nil_append] at hoff hput ⊢
  exact ⟨hoff, hput, htake, hpoll, htimed⟩

/-- C3 at capacity 3 with the elements `[10, 20, 30]`, offered and then taken. -/
theorem fifo_order_witness :
    [10, 20, 30].length ≤ 3
    ∧ offerAll (create 3) [10, 20, 30] = ([true, true, true], ⟨[10, 20, 30], 3⟩)
    ∧ takeN ⟨[10, 20, 30], 3⟩ 3 = Except.ok ([10, 20, 30], create 3) :=
  ⟨by decide, (fifo_order 3 [10, 20, 30] 0 100 (by decide)).1,
   (fifo_order 3 [10, 20, 30] 0 100 (by decide)).2.2.1⟩

/-! ## The instant poll -/

/-- C4: `poll(d)` on an empty queue returns `d` with `ok = false`, leaves the
queue unchanged and does not wait; on a non-empty queue it returns the head
with `ok = true` and the queue becomes the old items without the head. -/
theorem poll_instant (cap : Nat) (d : T) :
    poll ⟨[], cap⟩ d = Except.ok { ret := (d, false), queue := ⟨[], cap⟩, notified := [] }
    ∧ (∀ (x : T) (rest : List T),
        poll ⟨x :: rest, cap⟩ d
          = Except.ok { ret := (x, true), queue := ⟨rest, cap⟩,
                        notified := [Signal.cond_var_rem_notifyOne] }) :=
  ⟨poll_nil cap d, fun x rest => poll_cons x rest cap d⟩

/-! ## Round trip -/

/-- C5: on an empty queue of capacity at least 1, `offer(x)` returns true and
the following `poll(d)` returns `x` with `ok = true` and leaves the queue empty
again. -/
theorem offer_poll_round_trip (cap : Nat) (x d : T) (h : 1 ≤ cap) :
    ((create cap).offer x).ret = true
    ∧ ((create cap).offer x).queue.poll d
        = Except.ok { ret := (x, true), queue := create cap,
                      notified := [Signal.cond_var_rem_notifyOne] } := by
  have hoff := offer_of_lt (create cap) x (by simpa [create] using h)
  rw [hoff]
  exact ⟨rfl, poll_cons x [] cap d⟩

/-- C5 at capacity 1, offering 111 and polling with default 0. -/
theorem offer_poll_round_trip_witness :
    1 ≤ 1
    ∧ ((create 1).offer 111).ret = true
    ∧ ((create 1).offer 111).queue.poll 0
        = Except.ok { ret := (111, true), queue := create 1,
                      notified := [Signal.cond_var_rem_notifyOne] } :=
  ⟨by decide, offer_poll_round_trip 1 111 0 (by decide)⟩

/-! ## Draining into another queue -/

/-- C6: `drainTo(destination, maxCount)` is claimed to return
`min(maxCount, source size, destination capacity - destination size)`.  The code
subtracts the size of the source from the capacity of the destination instead:
with source `[1]` and a full destination `[7, 8]` of capacity 2 it returns 1
and moves the element, where the claimed count is 0. -/
theorem drainToQueue_count_ignores_destination_size :
    drainToQueue ⟨[1], 10⟩ ⟨[7, 8], 2⟩ SIZE_MAX
      = Except.ok { count := 1, queue := ⟨[], 10⟩, other := ⟨[7, 8, 1], 2⟩, notified := [] }
    ∧ min (min SIZE_MAX (⟨[1], 10⟩ : PIBlockingDequeue Nat).size)
          ((⟨[7, 8], 2⟩ : PIBlockingDequeue Nat).capacity
            - (⟨[7, 8], 2⟩ : PIBlockingDequeue Nat).size) = 0 :=
  ⟨rfl, by decide⟩

/-- C7: `drainTo` into another bounded queue is claimed never to overfill it.
With source `[1]` and a full destination `[7, 8, 9]` of capacity 3, which
satisfies `size <= capacity`, the code moves one element and the destination
ends with 4 elements. -/
theorem drainToQueue_overfills_destination :
    (⟨[7, 8, 9], 3⟩ : PIBlockingDequeue Nat).size ≤ (⟨[7, 8, 9], 3⟩ : PIBlockingDequeue Nat).capacity
    ∧ drainToQueue ⟨[1], 4⟩ ⟨[7, 8, 9], 3⟩ SIZE_MAX
      = Except.ok { count := 1, queue := ⟨[], 4⟩, other := ⟨[7, 8, 9, 1], 3⟩, notified := [] }
    ∧ ¬ ((⟨[7, 8, 9, 1], 3⟩ : PIBlockingDequeue Nat).size
          ≤ (⟨[7, 8, 9, 1], 3⟩ : PIBlockingDequeue Nat).capacity) :=
  ⟨by decide, rfl, by decide⟩

/-! ## Draining into a container -/

/-- C8: `drainTo(sink, maxCount)` removes exactly the first
`n = min(maxCount, size)` elements of the queue, appends them to the end of the
sink in the same order, leaves the remaining elements in order and returns `n`;
with the default `maxCount = SIZE_MAX` it empties the queue and returns the old
size (a size is a `size_t`, so at most `SIZE_MAX`). -/
theorem drainTo_moves_head_segment (q : PIBlockingDequeue T) (sink : List T) (maxCount : Nat) :
    q.drainTo sink maxCount
        = Except.ok { count := min maxCount q.size,
                      queue := ⟨q.data_queue.drop (min maxCount q.size), q.max_size⟩,
                      other := sink ++ q.data_queue.take (min maxCount q.size),
                      notified := [] }
    ∧ (q.size ≤ SIZE_MAX →
        q.drainTo sink SIZE_MAX
          = Except.ok { count := q.size, queue := ⟨[], q.max_size⟩,
                        other := sink ++ q.data_queue, notified := [] }) := by
  refine ⟨drainTo_eq q sink maxCount, fun h => ?_⟩
  have hmin : min SIZE_MAX q.data_queue.length = q.data_queue.length := Nat.min_eq_right h
  rw [drainTo_eq, hmin]
  simp [size]

/-- C8 on the queue `[0, 10, 20, 30, 40]` and the sink `[7]`: with `maxCount = 4`
and with the default `maxCount`. -/
theorem drainTo_moves_head_segment_witness :
    drainTo ⟨[0, 10, 20, 30, 40], 10⟩ [7] 4
        = Except.ok { count := 4, queue := ⟨[40], 10⟩, other := [7, 0, 10, 20, 30],
                      notified := [] }
    ∧ drainTo ⟨[0, 10, 20, 30, 40], 10⟩ [7] SIZE_MAX
        = Except.ok { count := 5, queue := ⟨[], 10⟩, other := [7, 0, 10, 20, 30, 40],
                      notified := [] } :=
  ⟨(drainTo_moves_head_segment ⟨[0, 10, 20, 30, 40], 10⟩ [7] 4).1,
   (drainTo_moves_head_segment ⟨[0, 10, 20, 30, 40], 10⟩ [7] 0).2 (by decide)⟩

/-! ## The blocking take and put -/

/-- C9: `take()` waits on the predicate `size != 0`, which is true exactly when
the queue is non-empty.  On an empty queue the caller stays blocked; once the
predicate holds, `take()` returns the head, read by `front()` before
`pop_front()`, and removes exactly that element, the remaining elements keeping
their order. -/
theorem take_head (cap : Nat) (x : T) (rest : List T) :
    (∀ q : PIBlockingDequeue T, q.notEmpty = true ↔ q.size ≠ 0)
    ∧ notEmpty (⟨[], cap⟩ : PIBlockingDequeue T) = false
    ∧ take (⟨[], cap⟩ : PIBlockingDequeue T) = Except.error Stuck.blocked
    ∧ notEmpty (⟨x :: rest, cap⟩ : PIBlockingDequeue T) = true
    ∧ front (x :: rest) = Except.ok x
    ∧ pop_front (x :: rest) = Except.ok rest
    ∧ take ⟨x :: rest, cap⟩
        = Except.ok { ret := x, queue := ⟨rest, cap⟩,
                      notified := [Signal.cond_var_rem_notify_one] } :=
  ⟨fun q => by simp [notEmpty, size], rfl, rfl, rfl, rfl, rfl, rfl⟩

/-- C10: `put(item)` waits on the predicate `size < capacity`, which is true
exactly when the queue is not full and false when the size equals the capacity.
While it is false the caller stays blocked; once it holds, `put` appends the
item at the tail: the queue becomes the old items followed by the item. -/
theorem put_appends (q : PIBlockingDequeue T) (v : T) :
    (q.notFull = true ↔ q.size < q.capacity)
    ∧ (q.size = q.capacity → q.notFull = false)
    ∧ q.put v =
        (if q.size < q.capacity then
          Except.ok { ret := (), queue := ⟨q.data_queue ++ [v], q.max_size⟩,
                      notified := [Signal.cond_var_add_notify_one] }
         else Except.error Stuck.blocked) := by
  refine ⟨notFull_iff q, fun h => ?_, ?_⟩
  · simp only [size, capacity] at h
    simp [notFull, h]
  · by_cases hlt : q.data_queue.length < q.max_size
    · rw [put_of_lt q v hlt]
      exact (if_pos hlt).symm
    · rw [put_of_ge q v (Nat.not_lt.mp hlt)]
      exact (if_neg hlt).symm

/-- C10 on the queue `[1]` of capacity 2, and on the full queue `[1]` of capacity 1. -/
theorem put_appends_witness :
    put ⟨[1], 2⟩ 5
        = Except.ok { ret := (), queue := ⟨[1, 5], 2⟩,
                      notified := [Signal.cond_var_add_notify_one] }
    ∧ put (⟨[1], 1⟩ : PIBlockingDequeue Nat) 5 = Except.error Stuck.blocked :=
  ⟨(put_appends ⟨[1], 2⟩ 5).2.2, (put_appends ⟨[1], 1⟩ 5).2.2⟩

/-! ## The timed offer and the timed poll -/

/-- C13: `remainingCapacity()` is claimed to equal capacity minus size and to
lie between 0 and the capacity in every state reachable through the public
operations, including after `drainTo` into the queue.  A queue of capacity 3
that receives 7, 8, 9 by `offer` and is then the sink of `drainTo` from a queue
holding `[1]` ends with the 4 elements `[7, 8, 9, 1]`; there
`remainingCapacity()` wraps around to `SIZE_MAX`, above the capacity. -/
theorem remainingCapacity_wraps_after_drainTo :
    afterCalls (create 3)
        [Call.offer 7, Call.offer 8, Call.offer 9, Call.drainFrom ⟨[1], 4⟩ SIZE_MAX]
      = ⟨[7, 8, 9, 1], 3⟩
    ∧ remainingCapacity (⟨[7, 8, 9, 1], 3⟩ : PIBlockingDequeue Nat) = SIZE_MAX
    ∧ ¬ (remainingCapacity (⟨[7, 8, 9, 1], 3⟩ : PIBlockingDequeue Nat)
          ≤ capacity (⟨[7, 8, 9, 1], 3⟩ : PIBlockingDequeue Nat)) :=
  ⟨rfl, rfl, by decide⟩

/-- C14: `capacity()` returns the capacity given to the constructor, `SIZE_MAX`
when none is given, and no sequence of calls of `put`, `offer`, `take`, `poll`,
`size`, `capacity`, `remainingCapacity` or `drainTo` (with the queue as source
or as sink) changes it. -/
theorem capacity_fixed (c : Nat) (q : PIBlockingDequeue T) (calls : List (Call T)) :
    (create c : PIBlockingDequeue T).capacity = c
    ∧ (createDefault : PIBlockingDequeue T).capacity = SIZE_MAX
    ∧ (afterCalls q calls).capacity = q.capacity :=
  ⟨rfl, rfl, afterCalls_max_size calls q⟩

/-! ## Notifications -/

/-- C23: every removing operation is claimed to signal "space-available" and
every inserting one "item-available".  Neither `drainTo` overload notifies:
draining `[1, 2]` into a container, or into an empty queue of capacity 5,
moves two elements and issues no notification at all. -/
theorem drainTo_issues_no_notification :
    drainTo ⟨[1, 2], 2⟩ [] SIZE_MAX
        = Except.ok { count := 2, queue := ⟨[], 2⟩, other := [1, 2], notified := [] }
    ∧ drainToQueue ⟨[1, 2], 2⟩ ⟨[], 5⟩ SIZE_MAX
        = Except.ok { count := 2, queue := ⟨[], 2⟩, other := ⟨[1, 2], 5⟩, notified := [] } :=
  ⟨rfl, rfl⟩

/-- C27: on a queue of capacity 0 no insertion ever succeeds.  In every state
`offer(item)` returns false, the wait predicate `size < capacity` of `put` and
of the timed `offer` is false, so `put` never proceeds and the timed `offer`
returns false; through any sequence of calls of these three members the queue
stays as it is, so the size of a queue created with capacity 0 stays 0. -/
theorem capacity_zero_rejects_insertion (data : List T) (v : T) (timeoutMs : Int)
    (calls : List (Call T)) (hc : ∀ c ∈ calls, c.isInsertion = true) :
    offer ⟨data, 0⟩ v = { ret := false, queue := ⟨data, 0⟩, notified := [] }
    ∧ notFull (⟨data, 0⟩ : PIBlockingDequeue T) = false
    ∧ put ⟨data, 0⟩ v = Except.error Stuck.blocked
    ∧ offerTimed ⟨data, 0⟩ v timeoutMs = { ret := false, queue := ⟨data, 0⟩, notified := [] }
    ∧ afterCalls ⟨data, 0⟩ calls = ⟨data, 0⟩
    ∧ (afterCalls (create 0 : PIBlockingDequeue T) calls).size = 0 := by
  have hoffer := offer_of_ge (⟨data, 0⟩ : PIBlockingDequeue T) v (Nat.zero_le _)
  refine ⟨hoffer, by simp [notFull], put_of_ge _ v (Nat.zero_le _),
    by rw [offerTimed_eq]; exact hoffer, afterCalls_capacity_zero data calls hc, ?_⟩
  have h0 := afterCalls_capacity_zero ([] : List T) calls hc
  simp only [create]
  rw [h0]
  rfl

/-- C27 on the empty queue of capacity 0 with the calls `offer(1)`, `put(2)`,
`offer(3, 100)`. -/
theorem capacity_zero_rejects_insertion_witness :
    (∀ c ∈ [Call.offer 1, Call.put 2, Call.offerTimed 3 100], c.isInsertion = true)
    ∧ afterCalls ⟨[], 0⟩ [Call.offer 1, Call.put 2, Call.offerTimed 3 100] = ⟨[], 0⟩ :=
  ⟨by decide,
   (capacity_zero_rejects_insertion [] 7 100 [Call.offer 1, Call.put 2, Call.offerTimed 3 100]
      (by decide)).2.2.2.2.1⟩

/-! ## Conservation of elements -/

/-- C30: both `drainTo` overloads conserve elements.  For every source, every
sink (a container, or a distinct queue of any capacity and size) and every
`maxCount` the call returns, and the contents of the sink after the call
followed by the contents of the source after the call are the contents of the
sink before followed by those of the source before: nothing is lost,
duplicated or reordered, also when the cap of the destination limits the
transfer. -/
theorem drainTo_conserves_elements (q other : PIBlockingDequeue T) (sink : List T)
    (maxCount : Nat) :
    (∃ r, q.drainTo sink maxCount = Except.ok r
        ∧ r.other ++ r.queue.data_queue = sink ++ q.data_queue)
    ∧ (∃ r, q.drainToQueue other maxCount = Except.ok r
        ∧ r.other.data_queue ++ r.queue.data_queue = other.data_queue ++ q.data_queue) := by
  constructor
  · refine ⟨_, drainTo_eq q sink maxCount, ?_⟩
    simp only [List.append_assoc, List.take_append_drop]
  · refine ⟨_, drainToQueue_eq q other maxCount, ?_⟩
    simp only [List.append_assoc, List.take_append_drop]

/-! ## The order of the locks -/

/-- C24, as the code has it: when the sink of `drainTo` is another queue, the
lock of the source is taken first and the lock of the sink second, so the
order depends on the roles; for two distinct queues `a.drainTo(b)` and
`b.drainTo(a)` take the two locks in opposite orders, and when each has taken
its first lock both are blocked for good. -/
theorem drainTo_locks_source_first (a b : Nat) (h : a ≠ b) :
    lockOrder (drainToQueueMutexOps a b) = [a, b]
    ∧ lockOrder (drainToQueueMutexOps b a) = [b, a]
    ∧ (∃ s, (TwoThreads.oppositeDrains a b).run [false, true] = some s
        ∧ s.deadlocked = true) :=
  ⟨rfl, rfl, _, oppositeDrains_run a b h, oppositeDrains_deadlocked a b⟩

/-- C24 as amended, on the queues 0 and 1. -/
theorem drainTo_locks_source_first_witness :
    (0 : Nat) ≠ 1
    ∧ lockOrder (drainToQueueMutexOps 0 1) = [0, 1]
    ∧ lockOrder (drainToQueueMutexOps 1 0) = [1, 0] :=
  ⟨by decide, (drainTo_locks_source_first 0 1 (by decide)).1,
   (drainTo_locks_source_first 0 1 (by decide)).2.1⟩

/-- C24 as stated fails: `a.drainTo(b)` locks `a` then `b` while `b.drainTo(a)`
locks `b` then `a`, and the schedule in which each thread takes its first lock
ends in a deadlock. -/
theorem drainTo_opposite_drains_deadlock :
    lockOrder (drainToQueueMutexOps 0 1) ≠ lockOrder (drainToQueueMutexOps 1 0)
    ∧ ((TwoThreads.oppositeDrains 0 1).run [false, true]).map TwoThreads.deadlocked
        = some true :=
  ⟨by decide, by decide⟩

end PIBlockingDequeue

namespace PIThreadPoolExecutorTemplate

variable {F : Type}

/-! ## Acceptance of tasks -/

/-- C15: when the state of the executor is not Running, as after `shutdown()`
or `shutdownNow()`, `execute(callable)` and `submit(callable)` offer nothing to
the task queue and leave the executor, and so the queue, unchanged: the
callable is in no queue for a worker to run; `submit` returns an invalid
future. -/
theorem rejected_when_not_running (e : PIThreadPoolExecutorTemplate F) (f : F)
    (h : e.thread_command_ ≠ thread_command.run) :
    submit e f = { ret := { valid := false }, executor := e, offered := [] }
    ∧ execute e f = { ret := (), executor := e, offered := [] } :=
  ⟨by simp [submit, h], by simp [execute, h]⟩

/-- C15 on an executor with one worker after `execute(7)` and `shutdown()`. -/
theorem rejected_when_not_running_witness :
    (shutdown (execute (construct 1) 7).executor).thread_command_ ≠ thread_command.run
    ∧ execute (shutdown (execute (construct 1) 7).executor) 8
        = { ret := (), executor := shutdown (execute (construct 1) 7).executor,
            offered := [] } :=
  ⟨by decide,
   (rejected_when_not_running (shutdown (execute (construct 1) 7).executor) 8 (by decide)).2⟩

/-- C16: when the state of the executor is Running, `submit(callable)` calls
`taskQueue.offer` exactly once, with a non-empty handle wrapping the packaged
callable, and returns a valid future; `execute(callable)` calls
`taskQueue.offer` exactly once, with a non-empty handle wrapping the callable. -/
theorem offered_when_running (e : PIThreadPoolExecutorTemplate F) (f : F)
    (h : e.thread_command_ = thread_command.run) :
    submit e f
        = { ret := { valid := true },
            executor :=
              { e with taskQueue :=
                  (e.taskQueue.offer (FunctionWrapper.wrap (Callable.packaged_task f))).queue },
            offered := [FunctionWrapper.wrap (Callable.packaged_task f)] }
    ∧ (FunctionWrapper.wrap (Callable.packaged_task f)).toBool = true
    ∧ execute e f
        = { ret := (),
            executor :=
              { e with taskQueue :=
                  (e.taskQueue.offer (FunctionWrapper.wrap (Callable.runnable f))).queue },
            offered := [FunctionWrapper.wrap (Callable.runnable f)] }
    ∧ (FunctionWrapper.wrap (Callable.runnable f)).toBool = true :=
  ⟨by simp [submit, h], rfl, by simp [execute, h], rfl⟩

/-- C16 on a freshly constructed executor with two workers. -/
theorem offered_when_running_witness :
    (construct 2 : PIThreadPoolExecutorTemplate Nat).thread_command_ = thread_command.run
    ∧ (submit (construct 2) 7).ret = { valid := true }
    ∧ (submit (construct 2) 7).executor.taskQueue.data_queue
        = [FunctionWrapper.wrap (Callable.packaged_task 7)] :=
  ⟨rfl, congrArg Outcome.ret (offered_when_running (construct 2) 7 rfl).1,
   congrArg (fun r => r.executor.taskQueue.data_queue)
     (offered_when_running (construct 2) 7 rfl).1⟩

/-! ## The shutdown state -/

/-- C17: `isShutdown()` returns true exactly when the state of the executor is
not Running: false for a freshly constructed executor, true after `shutdown()`
and true after `shutdownNow()`. -/
theorem isShutdown_iff_not_running (e : PIThreadPoolExecutorTemplate F) (corePoolSize : Nat) :
    (isShutdown e = true ↔ e.thread_command_ ≠ thread_command.run)
    ∧ isShutdown (construct corePoolSize : PIThreadPoolExecutorTemplate F) = false
    ∧ isShutdown (shutdown e) = true
    ∧ isShutdown (shutdownNow e) = true :=
  ⟨toBool_iff e.thread_command_, rfl, rfl, rfl⟩

/-! ## The worker loop -/

/-- C31: a worker never invokes an empty handle.  In a pass of its loop the
handle returned by the timed poll is invoked exactly when it is non-empty: on
an empty queue the poll times out and returns the default, empty handle, and
nothing is run; an empty handle taken from the queue is not run either; a
handle holding a callable runs it once.  No run of the loop ends in the
undefined call of an empty handle, and every handle that `submit` or `execute`
offers is non-empty. -/
theorem worker_invokes_only_nonempty (cmd : thread_command) (cap : Nat) (pool : List Thread)
    (rest : List (FunctionWrapper F)) (g : Callable F) (invoked : List (Callable F))
    (e : PIThreadPoolExecutorTemplate F) (f : F) (fuel : Nat) :
    PIBlockingDequeue.pollTimed ⟨[], cap⟩ 100 (FunctionWrapper.empty : FunctionWrapper F)
        = Except.ok { ret := (FunctionWrapper.empty, false), queue := ⟨[], cap⟩,
                      notified := [] }
    ∧ workerIteration ⟨cmd, ⟨[], cap⟩, pool⟩ invoked
        = Except.ok (⟨cmd, ⟨[], cap⟩, pool⟩, invoked)
    ∧ workerIteration ⟨cmd, ⟨FunctionWrapper.empty :: rest, cap⟩, pool⟩ invoked
        = Except.ok (⟨cmd, ⟨rest, cap⟩, pool⟩, invoked)
    ∧ workerIteration ⟨cmd, ⟨FunctionWrapper.wrap g :: rest, cap⟩, pool⟩ invoked
        = Except.ok (⟨cmd, ⟨rest, cap⟩, pool⟩, invoked ++ [g])
    ∧ (∀ s : Stuck, workerLoop fuel e invoked ≠ some (Except.error s))
    ∧ (∀ w ∈ (submit e f).offered ++ (execute e f).offered, w.toBool = true) := by
  refine ⟨rfl, rfl, rfl, rfl, workerLoop_no_error fuel e invoked, ?_⟩
  intro w hw
  by_cases hrun : e.thread_command_ = thread_command.run
  · simp only [submit, execute, hrun, if_true, List.mem_append, List.mem_singleton] at hw
    rcases hw with hw | hw <;> rw [hw] <;> rfl
  · simp [submit, execute, hrun] at hw

/-! ## Waiting for termination -/

/-- C19: `awaitTermination(timeoutMs)` is claimed to return true exactly when
every worker finishes within `timeoutMs` and never to block longer than that.
The code joins each worker without a bound: with one worker that finishes
1000 ms after the call and `timeoutMs = 100` it returns true after 1000 ms. -/
theorem awaitTermination_overruns_budget :
    awaitTermination (construct 1 : PIThreadPoolExecutorTemplate Nat) 100 (fun _ => 1000)
      = { ret := true, elapsed := 1000, threadPool := [{ joined := true }] } := by
  decide

/-! ## Repeated shutdown -/

/-- C22: destroying the executor is claimed to join every worker before the
handles are deleted, for every pool size and whatever time the workers need.
With two workers that finish 2000 ms after the destructor starts,
`awaitTermination(1000)` joins the first, finds the budget used up, and
returns false without joining the second; the destructor then deletes both
handles, the second without its having been joined. -/
theorem destroy_deletes_unjoined_worker :
    destroy (construct 2 : PIThreadPoolExecutorTemplate Nat) (fun _ => 2000)
      = { thread_command_ := thread_command.shutdown_now,
          awaited := { ret := false, elapsed := 2000,
                       threadPool := [{ joined := true }, { joined := false }] },
          deleted := [{ joined := false }, { joined := true }] } := by
  decide

/-! ## The two kinds of shutdown -/

/-- C25: `shutdownNow()` differs from `shutdown()` only in the value stored.
For every executor and queue contents `isShutdown()`, the decision of `submit`
and `execute` to accept, and the condition of the worker loop are the same
under `shutdown_now` as under `shutdown_c`; `shutdownNow()` leaves the queue as
it is, and a worker runs the same tasks and leaves the same queue after either
call. -/
theorem shutdownNow_behaves_as_shutdown (e : PIThreadPoolExecutorTemplate F) (f : F)
    (fuel : Nat) (invoked : List (Callable F)) :
    isShutdown (shutdownNow e) = isShutdown (shutdown e)
    ∧ (submit (shutdownNow e) f).offered = (submit (shutdown e) f).offered
    ∧ (submit (shutdownNow e) f).ret = (submit (shutdown e) f).ret
    ∧ (execute (shutdownNow e) f).offered = (execute (shutdown e) f).offered
    ∧ loopCondition (shutdownNow e) = loopCondition (shutdown e)
    ∧ (shutdownNow e).taskQueue = e.taskQueue
    ∧ (workerLoop fuel (shutdownNow e) invoked).map
          (Except.map fun r => (r.1.taskQueue, r.2))
        = (workerLoop fuel (shutdown e) invoked).map
            (Except.map fun r => (r.1.taskQueue, r.2)) := by
  obtain ⟨cmd, ⟨data, cap⟩, pool⟩ := e
  refine ⟨rfl, rfl, rfl, rfl, ?_, rfl, ?_⟩
  · simp only [shutdownNow, shutdown]
    rw [loopCondition_of_not_run _ (by decide), loopCondition_of_not_run _ (by decide)]
  · exact workerLoop_shutdown_kind thread_command.shutdown_now thread_command.shutdown_c
      (by decide) (by decide) cap pool fuel data invoked

/-! ## Staying shut down -/

/-- C29: once `shutdown()` or `shutdownNow()` has been called, no sequence of
calls of `submit`, `execute`, `shutdown`, `shutdownNow`, `isShutdown` and
`awaitTermination` returns the executor to Running: `isShutdown()` stays true,
and the task queue stays as it was, no later `submit` or `execute` adding a
task to it. -/
theorem stays_shut_down (e : PIThreadPoolExecutorTemplate F) (calls : List (ExecutorCall F)) :
    (afterCalls (shutdown e) calls).thread_command_ ≠ thread_command.run
    ∧ isShutdown (afterCalls (shutdown e) calls) = true
    ∧ (afterCalls (shutdown e) calls).taskQueue = e.taskQueue
    ∧ (afterCalls (shutdownNow e) calls).thread_command_ ≠ thread_command.run
    ∧ isShutdown (afterCalls (shutdownNow e) calls) = true
    ∧ (afterCalls (shutdownNow e) calls).taskQueue = e.taskQueue := by
  have h1 := afterCalls_not_running calls (shutdown e) (by simp [shutdown])
  have h2 := afterCalls_not_running calls (shutdownNow e) (by simp [shutdownNow])
  exact ⟨h1.1, (toBool_iff _).mpr h1.1, h1.2, h2.1, (toBool_iff _).mpr h2.1, h2.2⟩

end PIThreadPoolExecutorTemplate

namespace FunctionWrapper

variable {F : Type}

/-! ## The task handle -/

/-- C21, as the code has it: invoking an empty handle, default-constructed or
moved-from, dereferences the null `impl` without a check; the behaviour is
undefined and no error is raised.  A handle holding a callable runs it. -/
theorem call_empty_undefined (w self : FunctionWrapper F) (f : Callable F) :
    (empty : FunctionWrapper F).call = Except.error Stuck.undefined
    ∧ (moveConstruct w).2.call = Except.error Stuck.undefined
    ∧ (moveAssign self w).2.call = Except.error Stuck.undefined
    ∧ (wrap f).call = Except.ok f :=
  ⟨rfl, rfl, rfl, rfl⟩

/-- C21 as stated fails: invoking a default-constructed handle, or a handle
moved from, is undefined behaviour and not an error that is raised. -/
theorem call_empty_not_an_error :
    (empty : FunctionWrapper Nat).call = Except.error Stuck.undefined
    ∧ (moveConstruct (wrap (Callable.runnable 7))).2.call = Except.error Stuck.undefined :=
  ⟨rfl, rfl⟩

/-- C28: the boolean conversion of a handle reports whether a callable is
present.  It is false for a default-constructed handle and true for a handle
constructed from a callable; after a move, by construction or by assignment,
the destination reports what the source reported before and the source reports
false. -/
theorem toBool_reports_callable (w self : FunctionWrapper F) (f : Callable F) :
    (w.toBool = true ↔ ∃ g, w.impl = some g)
    ∧ (empty : FunctionWrapper F).toBool = false
    ∧ (wrap f).toBool = true
    ∧ (moveConstruct w).1.toBool = w.toBool
    ∧ (moveConstruct w).2.toBool = false
    ∧ (moveAssign self w).1.toBool = w.toBool
    ∧ (moveAssign self w).2.toBool = false := by
  refine ⟨?_, rfl, rfl, rfl, rfl, rfl, rfl⟩
  obtain ⟨impl⟩ := w
  cases impl <;> simp [toBool]

end FunctionWrapper

end PIP
